import Mathlib

/-!
Verification of the tfsp core (token buffer, frequency encoders, tone
synthesizer) against its natural-language specification.

The definitions below are shallow embeddings of the Python source:
 - src/tfsp/encoders/base.py   (ToneEvent, EncodedFrame)
 - src/tfsp/encoders/dtmf.py   (DTMF tables, DTMFEncoder)
 - src/tfsp/encoders/fsk.py    (FSKEncoder)
 - src/tfsp/encoders/ultrasonic.py (UltrasonicEncoder)
 - src/tfsp/buffer.py          (TokenBuffer)
 - src/tfsp/audio/tone.py      (generate_tone)

Python ints are modelled as ℤ (or ℕ where the source value is a count),
floats as ℚ where the source arithmetic is exact rational arithmetic on
the inputs, and as ℝ where the source computes sines.  Dict lookups that
can raise KeyError are modelled as Option-valued lookups; an async
handler that can raise is modelled as a function into Except.
-/

/-- A single tone or chord to play (base.py ToneEvent): a list of
frequencies in Hz and a duration in milliseconds. -/
structure ToneEvent where
  frequencies : List ℚ
  duration_ms : ℤ
deriving DecidableEq, Repr

/-- A sequence of tones representing encoded data (base.py EncodedFrame). -/
structure EncodedFrame where
  tones : List ToneEvent
  original_text : String
deriving DecidableEq, Repr

/-- dtmf.py LOW_FREQUENCIES: DTMF symbol to row (low) frequency. -/
def LOW_FREQUENCIES : List (Char × ℚ) :=
  [('1', 697), ('2', 697), ('3', 697), ('A', 697),
   ('4', 770), ('5', 770), ('6', 770), ('B', 770),
   ('7', 852), ('8', 852), ('9', 852), ('C', 852),
   ('*', 941), ('0', 941), ('#', 941), ('D', 941)]

/-- dtmf.py HIGH_FREQUENCIES: DTMF symbol to column (high) frequency. -/
def HIGH_FREQUENCIES : List (Char × ℚ) :=
  [('1', 1209), ('4', 1209), ('7', 1209), ('*', 1209),
   ('2', 1336), ('5', 1336), ('8', 1336), ('0', 1336),
   ('3', 1477), ('6', 1477), ('9', 1477), ('#', 1477),
   ('A', 1633), ('B', 1633), ('C', 1633), ('D', 1633)]

/-- dtmf.py HEX_TO_DTMF: hex digit characters to DTMF symbols. -/
def HEX_TO_DTMF : List (Char × Char) :=
  [('0', '0'), ('1', '1'), ('2', '2'), ('3', '3'), ('4', '4'),
   ('5', '5'), ('6', '6'), ('7', '7'), ('8', '8'), ('9', '9'),
   ('a', 'A'), ('b', 'B'), ('c', 'C'), ('d', 'D'), ('e', '*'), ('f', '#'),
   ('A', 'A'), ('B', 'B'), ('C', 'C'), ('D', 'D'), ('E', '*'), ('F', '#')]

/-- Lowercase hex digit character for a value below 16, as produced by
Python by the x format code. -/
def hexDigitChar (d : ℕ) : Char :=
  if d < 10 then Char.ofNat (48 + d) else Char.ofNat (87 + d)

/-- Extraction loop for the hex digits of a natural number, most
significant first.  The fuel argument only bounds the recursion depth
(n itself is always enough fuel); it makes the recursion structural. -/
def natToHexGo : ℕ → ℕ → List Char → List Char
  | 0, _, acc => acc
  | fuel + 1, n, acc =>
    if n < 16 then hexDigitChar n :: acc
    else natToHexGo fuel (n / 16) (hexDigitChar (n % 16) :: acc)

/-- Hex digits of a natural number, most significant first (the digits
of the Python format f-string with the x code, before padding). -/
def natToHex (n : ℕ) : List Char :=
  natToHexGo (n + 1) n []

/-- Python f-string formatting with the 02x format code: lowercase hex,
left-padded with zeros to a minimum width of 2.  Values above 255 produce
3 or more digits (02 is a minimum width, not a truncation). -/
def formatHex02 (n : ℕ) : List Char :=
  let ds := natToHex n
  List.replicate (2 - ds.length) '0' ++ ds

/-- A Python loop or comprehension that builds a list and can raise
(e.g. KeyError on a dict lookup): map each element, propagating the
first failure. -/
def optionMapList {α β : Type} (f : α → Option β) : List α → Option (List β)
  | [] => some []
  | a :: as => do
    let b ← f a
    let bs ← optionMapList f as
    pure (b :: bs)

/-- dtmf.py DTMFEncoder._char_to_dtmf_symbols: the character's code
point is formatted as (at least) 2 hex digits and each digit is looked
up in HEX_TO_DTMF.  A missing dict key (KeyError) is modelled as none. -/
def charToDtmfSymbols (char : Char) : Option (List Char) :=
  let ascii_code := char.toNat
  let hex_str := formatHex02 ascii_code
  optionMapList (fun digit => HEX_TO_DTMF.lookup digit) hex_str

/-- dtmf.py DTMFEncoder._symbol_to_frequencies: the (low, high) pair for
a DTMF symbol. -/
def symbolToFrequencies (symbol : Char) : Option (List ℚ) := do
  let low ← LOW_FREQUENCIES.lookup symbol
  let high ← HIGH_FREQUENCIES.lookup symbol
  pure [low, high]

/-- One iteration of the dtmf.py encode loop: the tone events produced
for a single character. -/
def dtmfEncodeChar (tone_duration_ms : ℤ) (char : Char) : Option (List ToneEvent) := do
  let symbols ← charToDtmfSymbols char
  optionMapList (fun symbol => do
    let frequencies ← symbolToFrequencies symbol
    pure { frequencies := frequencies, duration_ms := tone_duration_ms }) symbols

/-- dtmf.py DTMFEncoder.encode.  The encoder object holds only its
configured tone_duration_ms and encode never mutates it, so the encoder
is represented by that one value. -/
def dtmfEncode (tone_duration_ms : ℤ) (text : String) : Option EncodedFrame := do
  let tonesPerChar ← optionMapList (fun char => dtmfEncodeChar tone_duration_ms char) text.data
  pure { tones := tonesPerChar.flatten, original_text := text }

/-- dtmf.py DTMFEncoder.__init__ default for tone_duration_ms. -/
def DTMF_DEFAULT_TONE_DURATION_MS : ℤ := 100

namespace FSK

/-- fsk.py MIN_FREQUENCY. -/
def MIN_FREQUENCY : ℚ := 400

/-- fsk.py MAX_FREQUENCY. -/
def MAX_FREQUENCY : ℚ := 2000

/-- fsk.py FREQUENCY_RANGE. -/
def FREQUENCY_RANGE : ℚ := MAX_FREQUENCY - MIN_FREQUENCY

/-- fsk.py FSKEncoder._char_to_frequency: the code point is clamped to
[0, 255] and linearly interpolated into [MIN_FREQUENCY, MAX_FREQUENCY]. -/
def charToFrequency (char : Char) : ℚ :=
  let ascii_code : ℕ := char.toNat
  let ascii_code : ℕ := Nat.max 0 (Nat.min 255 ascii_code)
  MIN_FREQUENCY + (ascii_code : ℚ) / 255 * FREQUENCY_RANGE

/-- fsk.py FSKEncoder.encode: one single-frequency tone per character. -/
def encode (tone_duration_ms : ℤ) (text : String) : EncodedFrame :=
  { tones := text.data.map (fun char =>
      { frequencies := [charToFrequency char], duration_ms := tone_duration_ms }),
    original_text := text }

/-- fsk.py FSKEncoder.__init__ default for tone_duration_ms. -/
def DEFAULT_TONE_DURATION_MS : ℤ := 100

end FSK

namespace Ultrasonic

/-- ultrasonic.py MIN_FREQUENCY. -/
def MIN_FREQUENCY : ℚ := 15000

/-- ultrasonic.py MAX_FREQUENCY. -/
def MAX_FREQUENCY : ℚ := 20000

/-- ultrasonic.py FREQUENCY_RANGE. -/
def FREQUENCY_RANGE : ℚ := MAX_FREQUENCY - MIN_FREQUENCY

/-- ultrasonic.py DEFAULT_TONE_DURATION_MS. -/
def DEFAULT_TONE_DURATION_MS : ℤ := 5

/-- ultrasonic.py UltrasonicEncoder._char_to_frequency: the code point
is clamped to [0, 255] and linearly interpolated into [15000, 20000]. -/
def charToFrequency (char : Char) : ℚ :=
  let ascii_code : ℕ := char.toNat
  let ascii_code : ℕ := Nat.max 0 (Nat.min 255 ascii_code)
  MIN_FREQUENCY + (ascii_code : ℚ) / 255 * FREQUENCY_RANGE

/-- ultrasonic.py UltrasonicEncoder.encode: one single-frequency tone
per character. -/
def encode (tone_duration_ms : ℤ) (text : String) : EncodedFrame :=
  { tones := text.data.map (fun char =>
      { frequencies := [charToFrequency char], duration_ms := tone_duration_ms }),
    original_text := text }

/-- ultrasonic.py UltrasonicEncoder.theoretical_speed_bps. -/
def theoretical_speed_bps (tone_duration_ms : ℤ) : ℚ :=
  1000 / (tone_duration_ms : ℚ) * 8

end Ultrasonic

/-- buffer.py TokenBuffer state: configured threshold, accumulated text
and pending-fragment counter.  __init__ performs no validation, so
buffer_size is an arbitrary Python int, modelled as ℤ. -/
structure TokenBuffer where
  buffer_size : ℤ
  buffer : String
  token_count : ℤ
deriving DecidableEq, Repr

/-- buffer.py TokenBuffer.__init__: stores buffer_size, empty text,
zero counter.  No validation of buffer_size is performed. -/
def TokenBuffer.init (buffer_size : ℤ) : TokenBuffer :=
  { buffer_size := buffer_size, buffer := "", token_count := 0 }

/-- buffer.py TokenBuffer.flush.  The async on_flush handler may raise,
modelled as Except; the result is the new state, the propagated
exception if any, and the list of handler invocations (arguments) made
by this call.  On handler failure the two reset assignments are never
reached, so the state is returned unchanged. -/
def TokenBuffer.flush {E : Type} (on_flush : String → Except E Unit)
    (self : TokenBuffer) : TokenBuffer × Option E × List String :=
  if self.buffer ≠ "" then
    match on_flush self.buffer with
    | Except.ok _ => ({ self with buffer := "", token_count := 0 }, none, [self.buffer])
    | Except.error e => (self, some e, [self.buffer])
  else (self, none, [])

/-- buffer.py TokenBuffer.add: append the fragment, count it, and flush
synchronously if the counter reached the threshold. -/
def TokenBuffer.add {E : Type} (on_flush : String → Except E Unit)
    (self : TokenBuffer) (text : String) : TokenBuffer × Option E × List String :=
  let self := { self with buffer := self.buffer ++ text,
                          token_count := self.token_count + 1 }
  if self.token_count ≥ self.buffer_size then
    TokenBuffer.flush on_flush self
  else (self, none, [])

/-- One client operation on a TokenBuffer: an add call or an explicit
flush call. -/
inductive BufferOp where
  | addOp : String → BufferOp
  | flushOp : BufferOp
deriving DecidableEq, Repr

/-- Run a sequence of TokenBuffer operations.  An exception raised by
the flush handler propagates: no further operation runs. -/
def runOps {E : Type} (on_flush : String → Except E Unit) :
    TokenBuffer → List BufferOp → TokenBuffer × Option E
  | tb, [] => (tb, none)
  | tb, op :: rest =>
    let step := match op with
      | BufferOp.addOp s => TokenBuffer.add on_flush tb s
      | BufferOp.flushOp => TokenBuffer.flush on_flush tb
    match step.2.1 with
    | some e => (step.1, some e)
    | none => runOps on_flush step.1 rest

/-- A flush handler that always succeeds (used for concrete runs). -/
def okHandler : String → Except Unit Unit := fun _ => Except.ok ()

/-- A flush handler that always raises (used for concrete runs). -/
def errHandler : String → Except ℕ Unit := fun _ => Except.error 7

/-- tone.py: num_samples = int(sample_rate * duration_ms / 1000).  For
nonnegative inputs Python's int() of the exact quotient is the floor,
i.e. ℕ division. -/
def numSamples (sample_rate duration_ms : ℕ) : ℕ :=
  sample_rate * duration_ms / 1000

/-- tone.py: element i of np.linspace(0, duration_ms / 1000,
num_samples): the grid includes both endpoints, with step
(duration_ms/1000) / (num_samples - 1).  For num_samples = 1 the single
element is 0 (division by zero is 0 in ℚ, matching the numpy value). -/
def sampleTime (duration_ms num_samples : ℕ) (i : ℕ) : ℚ :=
  (duration_ms : ℚ) / 1000 * i / ((num_samples - 1 : ℕ) : ℚ)

/-- tone.py: fade_samples = int(sample_rate * 0.01): the number of
samples in 10 ms at the given rate. -/
def fadeSamples (sample_rate : ℕ) : ℕ :=
  sample_rate / 100

/-- tone.py: the combined envelope factor at index i of an n-sample
signal with the given fade length: fade_in is np.linspace(0, 1, fade)
over the first fade samples, fade_out is np.linspace(1, 0, fade) over
the last fade samples, and all other samples are scaled by 1. -/
def fadeFactor (fade n i : ℕ) : ℚ :=
  (if i < fade then (i : ℚ) / ((fade - 1 : ℕ) : ℚ) else 1) *
  (if n - fade ≤ i then 1 - ((i - (n - fade) : ℕ) : ℚ) / ((fade - 1 : ℕ) : ℚ) else 1)

/-- tone.py: the summed sine signal at sample index i, before
normalization: sum over the frequency list of sin(2 pi f t_i). -/
noncomputable def rawSignal (frequencies : List ℚ) (duration_ms sample_rate : ℕ)
    (i : ℕ) : ℝ :=
  (frequencies.map (fun freq =>
    Real.sin (2 * Real.pi * (freq : ℝ) *
      ((sampleTime duration_ms (numSamples sample_rate duration_ms) i : ℚ) : ℝ)))).sum

/-- tone.py: the signal after the normalization step (division by the
number of frequencies when the list is non-empty), i.e. the value of
the signal variable just before the envelope is applied. -/
noncomputable def toneSignalNormalized (frequencies : List ℚ)
    (duration_ms sample_rate : ℕ) (i : ℕ) : ℝ :=
  if 0 < frequencies.length then
    rawSignal frequencies duration_ms sample_rate i / (frequencies.length : ℝ)
  else rawSignal frequencies duration_ms sample_rate i

/-- tone.py: the final sample at index i: the envelope is applied only
when fade_samples > 0 and the signal is longer than twice the fade. -/
noncomputable def toneSample (frequencies : List ℚ)
    (duration_ms sample_rate : ℕ) (i : ℕ) : ℝ :=
  let n := numSamples sample_rate duration_ms
  let fade := fadeSamples sample_rate
  if 0 < fade ∧ 2 * fade < n then
    (fadeFactor fade n i : ℝ) * toneSignalNormalized frequencies duration_ms sample_rate i
  else toneSignalNormalized frequencies duration_ms sample_rate i

/-- tone.py generate_tone: the full sample buffer.  Real arithmetic
models the float32 computation exactly at the level the claims speak
about (grid positions, normalization, envelope, value bounds). -/
noncomputable def generate_tone (frequencies : List ℚ)
    (duration_ms sample_rate : ℕ) : List ℝ :=
  (List.range (numSamples sample_rate duration_ms)).map
    (toneSample frequencies duration_ms sample_rate)

/-! ## Helper lemmas: strings and the token buffer -/

lemma string_one_le_length (s : String) (hs : s ≠ "") : 1 ≤ s.length := by
  cases s with
  | mk data =>
    cases data with
    | nil => simp at hs
    | cons c cs => simp [String.length]

lemma tokenBufferFlush_ok_reset {E : Type} (on_flush : String → Except E Unit)
    (tb : TokenBuffer) (hne : tb.buffer ≠ "") (hok : on_flush tb.buffer = Except.ok ()) :
    TokenBuffer.flush on_flush tb =
      ({ buffer_size := tb.buffer_size, buffer := "", token_count := 0 }, none, [tb.buffer]) := by
  simp [TokenBuffer.flush, hne, hok]

lemma tokenBufferFlush_empty {E : Type} (on_flush : String → Except E Unit)
    (tb : TokenBuffer) (he : tb.buffer = "") :
    TokenBuffer.flush on_flush tb = (tb, none, []) := by
  simp [TokenBuffer.flush, he]

lemma tokenBufferFlush_inv {E : Type} (on_flush : String → Except E Unit)
    (hok : ∀ s, on_flush s = Except.ok ()) (b : ℤ) (hb : 1 ≤ b) (tb : TokenBuffer)
    (h1 : tb.buffer_size = b) (h2 : 0 ≤ tb.token_count)
    (h3 : tb.token_count ≤ (tb.buffer.length : ℤ)) (h4 : tb.token_count < b) :
    (TokenBuffer.flush on_flush tb).2.1 = none ∧
    (TokenBuffer.flush on_flush tb).1.buffer_size = b ∧
    0 ≤ (TokenBuffer.flush on_flush tb).1.token_count ∧
    (TokenBuffer.flush on_flush tb).1.token_count ≤
      ((TokenBuffer.flush on_flush tb).1.buffer.length : ℤ) ∧
    (TokenBuffer.flush on_flush tb).1.token_count < b := by
  by_cases he : tb.buffer = ""
  · rw [tokenBufferFlush_empty on_flush tb he]
    exact ⟨rfl, h1, h2, h3, h4⟩
  · rw [tokenBufferFlush_ok_reset on_flush tb he (hok tb.buffer)]
    dsimp only
    refine ⟨rfl, h1, le_refl 0, by simp, by omega⟩

lemma tokenBufferAdd_inv {E : Type} (on_flush : String → Except E Unit)
    (hok : ∀ s, on_flush s = Except.ok ()) (b : ℤ) (hb : 1 ≤ b) (tb : TokenBuffer)
    (s : String) (hs : s ≠ "")
    (h1 : tb.buffer_size = b) (h2 : 0 ≤ tb.token_count)
    (h3 : tb.token_count ≤ (tb.buffer.length : ℤ)) (h4 : tb.token_count < b) :
    (TokenBuffer.add on_flush tb s).2.1 = none ∧
    (TokenBuffer.add on_flush tb s).1.buffer_size = b ∧
    0 ≤ (TokenBuffer.add on_flush tb s).1.token_count ∧
    (TokenBuffer.add on_flush tb s).1.token_count ≤
      ((TokenBuffer.add on_flush tb s).1.buffer.length : ℤ) ∧
    (TokenBuffer.add on_flush tb s).1.token_count < b := by
  have hslen : 1 ≤ s.length := string_one_le_length s hs
  unfold TokenBuffer.add
  dsimp only
  by_cases hth : tb.token_count + 1 ≥ tb.buffer_size
  · rw [if_pos hth]
    have hne : tb.buffer ++ s ≠ "" := by
      intro hcontra
      have hlen := congrArg String.length hcontra
      rw [String.length_append] at hlen
      have hz : ("" : String).length = 0 := rfl
      omega
    rw [tokenBufferFlush_ok_reset on_flush _ hne (hok _)]
    dsimp only
    refine ⟨rfl, h1, le_refl 0, by simp, by omega⟩
  · rw [if_neg hth]
    dsimp only
    refine ⟨rfl, h1, by omega, ?_, by omega⟩
    rw [String.length_append]
    push_cast
    omega

lemma runOps_inv {E : Type} (on_flush : String → Except E Unit)
    (hok : ∀ s, on_flush s = Except.ok ()) (b : ℤ) (hb : 1 ≤ b) :
    ∀ (ops : List BufferOp) (tb : TokenBuffer),
      (∀ s, BufferOp.addOp s ∈ ops → s ≠ "") →
      tb.buffer_size = b → 0 ≤ tb.token_count →
      tb.token_count ≤ (tb.buffer.length : ℤ) → tb.token_count < b →
      (runOps on_flush tb ops).1.token_count < b := by
  intro ops
  induction ops with
  | nil => intro tb _ _ _ _ h4; simpa [runOps] using h4
  | cons op rest ih =>
    intro tb hne h1 h2 h3 h4
    cases op with
    | addOp s =>
      have hs : s ≠ "" := hne s (by simp)
      obtain ⟨herr, k1, k2, k3, k4⟩ := tokenBufferAdd_inv on_flush hok b hb tb s hs h1 h2 h3 h4
      rw [runOps]
      simp only [herr]
      exact ih _ (fun x hx => hne x (by simp [hx])) k1 k2 k3 k4
    | flushOp =>
      obtain ⟨herr, k1, k2, k3, k4⟩ := tokenBufferFlush_inv on_flush hok b hb tb h1 h2 h3 h4
      rw [runOps]
      simp only [herr]
      exact ih _ (fun x hx => hne x (by simp [hx])) k1 k2 k3 k4

/-! ## Helper lemmas: the DTMF encoder -/

lemma dtmfDigitGood : ∀ d : ℕ, d < 16 →
    ∃ s lo hi, HEX_TO_DTMF.lookup (hexDigitChar d) = some s ∧
      symbolToFrequencies s = some [lo, hi] ∧
      lo ∈ ([697, 770, 852, 941] : List ℚ) ∧
      hi ∈ ([1209, 1336, 1477, 1633] : List ℚ) := by
  intro d hd
  interval_cases d <;> exact ⟨_, _, _, rfl, rfl, by decide, by decide⟩

set_option maxRecDepth 4000 in
lemma formatHex02_two_digits : ∀ n : ℕ, n < 256 →
    formatHex02 n = [hexDigitChar (n / 16), hexDigitChar (n % 16)] := by decide

lemma dtmfEncodeChar_of_le255 (dur : ℤ) (c : Char) (hc : c.toNat ≤ 255) :
    ∃ lo1 hi1 lo2 hi2 : ℚ,
      dtmfEncodeChar dur c =
        some [{ frequencies := [lo1, hi1], duration_ms := dur },
              { frequencies := [lo2, hi2], duration_ms := dur }] ∧
      lo1 ∈ ([697, 770, 852, 941] : List ℚ) ∧ hi1 ∈ ([1209, 1336, 1477, 1633] : List ℚ) ∧
      lo2 ∈ ([697, 770, 852, 941] : List ℚ) ∧ hi2 ∈ ([1209, 1336, 1477, 1633] : List ℚ) := by
  obtain ⟨s1, lo1, hi1, hs1, hf1, hm1, hn1⟩ := dtmfDigitGood (c.toNat / 16) (by omega)
  obtain ⟨s2, lo2, hi2, hs2, hf2, hm2, hn2⟩ := dtmfDigitGood (c.toNat % 16) (by omega)
  refine ⟨lo1, hi1, lo2, hi2, ?_, hm1, hn1, hm2, hn2⟩
  simp [dtmfEncodeChar, charToDtmfSymbols, formatHex02_two_digits c.toNat (by omega),
        optionMapList, hs1, hs2, hf1, hf2]

lemma dtmfEncodeList_of_le255 (dur : ℤ) :
    ∀ (cs : List Char), (∀ c ∈ cs, c.toNat ≤ 255) →
    ∃ tpc : List (List ToneEvent),
      optionMapList (fun char => dtmfEncodeChar dur char) cs = some tpc ∧
      tpc.flatten.length = 2 * cs.length ∧
      ∀ ev ∈ tpc.flatten,
        ∃ lo hi, ev.frequencies = [lo, hi] ∧
          lo ∈ ([697, 770, 852, 941] : List ℚ) ∧
          hi ∈ ([1209, 1336, 1477, 1633] : List ℚ) := by
  intro cs
  induction cs with
  | nil => exact fun _ => ⟨[], rfl, rfl, by simp⟩
  | cons c rest ih =>
    intro h
    obtain ⟨lo1, hi1, lo2, hi2, henc, hm1, hn1, hm2, hn2⟩ :=
      dtmfEncodeChar_of_le255 dur c (h c (by simp))
    obtain ⟨tpc, htpc, hlen, hev⟩ := ih (fun x hx => h x (by simp [hx]))
    refine ⟨[{ frequencies := [lo1, hi1], duration_ms := dur },
             { frequencies := [lo2, hi2], duration_ms := dur }] :: tpc, ?_, ?_, ?_⟩
    · simp [optionMapList, henc, htpc]
    · simp only [List.flatten_cons, List.length_append, hlen, List.length_cons]
      simp
      omega
    · intro ev hmem
      rw [List.flatten_cons, List.mem_append] at hmem
      rcases hmem with hmem | hmem
      · simp only [List.mem_cons, List.not_mem_nil, or_false] at hmem
        rcases hmem with rfl | rfl
        · exact ⟨lo1, hi1, rfl, hm1, hn1⟩
        · exact ⟨lo2, hi2, rfl, hm2, hn2⟩
      · exact hev ev hmem

lemma optionMapList_forall {α β : Type} (f : α → Option β) (P : β → Prop)
    (hf : ∀ a b, f a = some b → P b) :
    ∀ (l : List α) (bs : List β), optionMapList f l = some bs → ∀ b ∈ bs, P b := by
  intro l
  induction l with
  | nil =>
    intro bs h b hb
    simp [optionMapList] at h
    subst h
    simp at hb
  | cons a as ih =>
    intro bs h b hb
    simp [optionMapList, Option.bind_eq_some] at h
    obtain ⟨b1, hb1, bs1, hbs1, rfl⟩ := h
    rcases List.mem_cons.mp hb with rfl | hmem
    · exact hf a b hb1
    · exact ih bs1 hbs1 b hmem

lemma dtmfEncodeChar_durations (dur : ℤ) (c : Char) (evs : List ToneEvent)
    (h : dtmfEncodeChar dur c = some evs) : ∀ ev ∈ evs, ev.duration_ms = dur := by
  unfold dtmfEncodeChar at h
  rw [Option.bind_eq_bind', Option.bind_eq_some'] at h
  obtain ⟨syms, hsyms, h⟩ := h
  refine optionMapList_forall _ (fun ev => ev.duration_ms = dur) ?_ syms evs h
  intro s ev hev
  rw [Option.bind_eq_bind', Option.bind_eq_some'] at hev
  obtain ⟨fr, hfr, hpure⟩ := hev
  simp only [Option.pure_def, Option.some.injEq] at hpure
  rw [← hpure]

lemma dtmfEncode_durations (dur : ℤ) (t : String) (frame : EncodedFrame)
    (h : dtmfEncode dur t = some frame) : ∀ ev ∈ frame.tones, ev.duration_ms = dur := by
  unfold dtmfEncode at h
  rw [Option.bind_eq_bind', Option.bind_eq_some'] at h
  obtain ⟨tpc, htpc, hpure⟩ := h
  simp only [Option.pure_def, Option.some.injEq] at hpure
  intro ev hev
  rw [← hpure] at hev
  simp only at hev
  obtain ⟨l, hl, hevl⟩ := List.mem_flatten.mp hev
  exact optionMapList_forall _ (fun l => ∀ ev ∈ l, ev.duration_ms = dur)
    (fun c evs hc => dtmfEncodeChar_durations dur c evs hc) t.data tpc htpc l hl ev hevl

/-- Claim C10: for every encoder variant (dual-tone, audible single-tone,
ultrasonic) and every input text, encode is pure in the configured
tone_duration_ms (the embedding is functional and encode never writes the
field), every tone event in the returned frame carries duration_ms equal
to the configured value, and the construction defaults are 100 ms for the
dual-tone and audible variants and 5 ms for the ultrasonic variant. -/
theorem encode_duration_propagation (dur : ℤ) (t : String) :
    (∀ frame, dtmfEncode dur t = some frame →
      frame.tones.map (fun ev => ev.duration_ms) = List.replicate frame.tones.length dur) ∧
    (FSK.encode dur t).tones.map (fun ev => ev.duration_ms) = List.replicate t.length dur ∧
    (Ultrasonic.encode dur t).tones.map (fun ev => ev.duration_ms) = List.replicate t.length dur ∧
    DTMF_DEFAULT_TONE_DURATION_MS = 100 ∧
    FSK.DEFAULT_TONE_DURATION_MS = 100 ∧
    Ultrasonic.DEFAULT_TONE_DURATION_MS = 5 := by
  refine ⟨?_, ?_, ?_, rfl, rfl, rfl⟩
  · intro frame hframe
    refine List.eq_replicate_iff.mpr ⟨by simp, ?_⟩
    intro x hx
    obtain ⟨ev, hev, rfl⟩ := List.mem_map.mp hx
    exact dtmfEncode_durations dur t frame hframe ev hev
  · refine List.eq_replicate_iff.mpr ⟨?_, ?_⟩
    · show ((FSK.encode dur t).tones.map (fun ev => ev.duration_ms)).length = t.length
      rw [List.length_map]
      rw [show (FSK.encode dur t).tones = t.data.map _ from rfl]
      rw [List.length_map]
      rfl
    · intro x hx
      obtain ⟨ev, hev, rfl⟩ := List.mem_map.mp hx
      obtain ⟨c, hc, rfl⟩ := List.mem_map.mp hev
      rfl
  · refine List.eq_replicate_iff.mpr ⟨?_, ?_⟩
    · show ((Ultrasonic.encode dur t).tones.map (fun ev => ev.duration_ms)).length = t.length
      rw [List.length_map]
      rw [show (Ultrasonic.encode dur t).tones = t.data.map _ from rfl]
      rw [List.length_map]
      rfl
    · intro x hx
      obtain ⟨ev, hev, rfl⟩ := List.mem_map.mp hx
      obtain ⟨c, hc, rfl⟩ := List.mem_map.mp hev
      rfl

lemma generate_tone_length (frequencies : List ℚ) (d r : ℕ) :
    (generate_tone frequencies d r).length = numSamples r d := by
  simp [generate_tone]

lemma generate_tone_getElem (frequencies : List ℚ) (d r i : ℕ) (hi : i < numSamples r d) :
    (generate_tone frequencies d r)[i]? = some (toneSample frequencies d r i) := by
  simp [generate_tone, List.getElem?_map, List.getElem?_range hi]

lemma cast_div_le_one (a b : ℕ) (hab : a ≤ b) : (a : ℚ) / (b : ℚ) ≤ 1 := by
  rcases Nat.eq_zero_or_pos b with h0 | hpos
  · subst h0
    have ha : a = 0 := by omega
    subst ha
    norm_num
  · rw [div_le_one (by exact_mod_cast hpos)]
    exact_mod_cast hab

lemma fadeFactor_nonneg_le_one (fade n i : ℕ) (hf : 0 < fade) (hn : 2 * fade < n)
    (hi : i < n) : 0 ≤ fadeFactor fade n i ∧ fadeFactor fade n i ≤ 1 := by
  unfold fadeFactor
  have h1a : (0:ℚ) ≤ (if i < fade then (i : ℚ) / ((fade - 1 : ℕ) : ℚ) else 1) := by
    split
    · positivity
    · norm_num
  have h1b : (if i < fade then (i : ℚ) / ((fade - 1 : ℕ) : ℚ) else 1) ≤ 1 := by
    split
    · exact cast_div_le_one i (fade - 1) (by rename_i hlt; omega)
    · norm_num
  have hratio0 : (0:ℚ) ≤ ((i - (n - fade) : ℕ) : ℚ) / ((fade - 1 : ℕ) : ℚ) := by positivity
  have hratio1 : ((i - (n - fade) : ℕ) : ℚ) / ((fade - 1 : ℕ) : ℚ) ≤ 1 :=
    cast_div_le_one _ _ (by omega)
  have h2a : (0:ℚ) ≤
      (if n - fade ≤ i then 1 - ((i - (n - fade) : ℕ) : ℚ) / ((fade - 1 : ℕ) : ℚ) else 1) := by
    split
    · linarith
    · norm_num
  have h2b : (if n - fade ≤ i then 1 - ((i - (n - fade) : ℕ) : ℚ) / ((fade - 1 : ℕ) : ℚ) else 1) ≤ 1 := by
    split
    · linarith
    · norm_num
  exact ⟨mul_nonneg h1a h2a, mul_le_one₀ h1b h2a h2b⟩

lemma fadeFactor_first (fade n : ℕ) (hf : 0 < fade) : fadeFactor fade n 0 = 0 := by
  simp [fadeFactor, hf]

lemma fadeFactor_last (fade n : ℕ) (hf : 2 ≤ fade) (hn : 2 * fade < n) :
    fadeFactor fade n (n - 1) = 0 := by
  unfold fadeFactor
  rw [if_neg (by omega), if_pos (by omega)]
  have hdiff : n - 1 - (n - fade) = fade - 1 := by omega
  rw [hdiff, div_self (Nat.cast_ne_zero.mpr (by omega))]
  norm_num

lemma toneSample_eq (frequencies : List ℚ) (d r i : ℕ) :
    toneSample frequencies d r i =
      if 0 < fadeSamples r ∧ 2 * fadeSamples r < numSamples r d then
        ((fadeFactor (fadeSamples r) (numSamples r d) i : ℚ) : ℝ) *
          toneSignalNormalized frequencies d r i
      else toneSignalNormalized frequencies d r i := rfl

lemma toneSignalNormalized_single (f : ℚ) (d r i : ℕ) :
    toneSignalNormalized [f] d r i =
      Real.sin (2 * Real.pi * (f : ℝ) *
        ((sampleTime d (numSamples r d) i : ℚ) : ℝ)) := by
  simp [toneSignalNormalized, rawSignal]

lemma toneSample_single_bound (f : ℚ) (d r i : ℕ) (hi : i < numSamples r d) :
    -1 ≤ toneSample [f] d r i ∧ toneSample [f] d r i ≤ 1 := by
  have hsin1 := Real.neg_one_le_sin (2 * Real.pi * (f : ℝ) *
    ((sampleTime d (numSamples r d) i : ℚ) : ℝ))
  have hsin2 := Real.sin_le_one (2 * Real.pi * (f : ℝ) *
    ((sampleTime d (numSamples r d) i : ℚ) : ℝ))
  rw [toneSample_eq]
  split
  · rename_i hguard
    obtain ⟨hc0, hc1⟩ := fadeFactor_nonneg_le_one (fadeSamples r) (numSamples r d) i
      hguard.1 hguard.2 hi
    rw [toneSignalNormalized_single]
    have hc0R : (0:ℝ) ≤ ((fadeFactor (fadeSamples r) (numSamples r d) i : ℚ) : ℝ) := by
      exact_mod_cast hc0
    have hc1R : ((fadeFactor (fadeSamples r) (numSamples r d) i : ℚ) : ℝ) ≤ 1 := by
      exact_mod_cast hc1
    constructor <;> nlinarith
  · rw [toneSignalNormalized_single]
    exact ⟨hsin1, hsin2⟩

/-- Claim C5 (amended): render(frequencies, d, r) returns a buffer of
length int(r*d/1000) (floor division, not round); with an empty frequency
list every sample is exactly 0; with k >= 1 frequencies the sample at
index i before the fade envelope equals the sum over the frequencies f of
sin(2 pi f t_i) divided by k, where t_i = (d/1000) * i / (N - 1) is the
inclusive-endpoint linspace grid position (not i/r as the claim stated). -/
theorem generate_tone_length_zeros_grid (frequencies : List ℚ) (d r : ℕ) :
    (generate_tone frequencies d r).length = r * d / 1000 ∧
    (frequencies = [] → ∀ x ∈ generate_tone frequencies d r, x = 0) ∧
    (0 < frequencies.length → ∀ i, i < r * d / 1000 →
      toneSignalNormalized frequencies d r i =
        (frequencies.map (fun f => Real.sin (2 * Real.pi * (f : ℝ) *
          ((d : ℝ) / 1000 * (i : ℝ) / ((r * d / 1000 - 1 : ℕ) : ℝ))))).sum /
        (frequencies.length : ℝ)) := by
  refine ⟨generate_tone_length frequencies d r, ?_, ?_⟩
  · intro h x hx
    subst h
    simp only [generate_tone, List.mem_map, List.mem_range] at hx
    obtain ⟨i, hi, rfl⟩ := hx
    rw [toneSample_eq]
    simp [toneSignalNormalized, rawSignal]
  · intro hk i hi
    unfold toneSignalNormalized
    rw [if_pos hk]
    congr 1
    unfold rawSignal
    congr 1
    apply List.map_congr_left
    intro f hf
    congr 1
    push_cast [sampleTime, numSamples]
    ring

/-- Claim C5 counterexample: at r = 44100 and d = 17 the buffer length is
749 = int(749.7) while round(749.7) = 750; and at frequencies = [1],
d = 2000, r = 2 (no fade applied), sample 1 is sin(4 pi / 3), which
differs from the claim value sin(2 pi * 1 * (1/2)) / 1 = 0. -/
theorem generate_tone_grid_counterexample :
    (generate_tone [] 17 44100).length = 749 ∧
    round ((44100 * 17 : ℚ) / 1000) = 750 ∧
    (generate_tone [1] 2000 2)[1]? ≠
      some ((([1] : List ℚ).map (fun f : ℚ => Real.sin (2 * Real.pi * (f : ℝ) * ((1 : ℝ) / 2)))).sum /
        (([1] : List ℚ).length : ℝ)) := by
  refine ⟨?_, by norm_num [round_eq], ?_⟩
  · rw [generate_tone_length]
    decide
  · rw [generate_tone_getElem [1] 2000 2 1 (by decide), Ne, Option.some.injEq]
    intro h
    have hL : toneSample [1] 2000 2 1 = Real.sin (4 * Real.pi / 3) := by
      rw [toneSample_eq, if_neg (by decide), toneSignalNormalized_single]
      congr 1
      have hst : sampleTime 2000 (numSamples 2 2000) 1 = 2 / 3 := by
        norm_num [sampleTime, numSamples]
      rw [hst]
      push_cast
      ring
    have hR : ((([1] : List ℚ).map (fun f : ℚ => Real.sin (2 * Real.pi * (f : ℝ) * ((1 : ℝ) / 2)))).sum /
        (([1] : List ℚ).length : ℝ)) = 0 := by
      simp only [List.map_cons, List.map_nil, List.sum_cons, List.sum_nil, add_zero,
        List.length_cons, List.length_nil]
      rw [show 2 * Real.pi * ((1 : ℚ) : ℝ) * ((1 : ℝ) / 2) = Real.pi by push_cast; ring]
      simp [Real.sin_pi]
    rw [hL, hR] at h
    have hneg : Real.sin (4 * Real.pi / 3) < 0 := by
      have h4 : 4 * Real.pi / 3 = -(2 * Real.pi) / 3 + 2 * Real.pi := by ring
      rw [h4, Real.sin_add_two_pi]
      apply Real.sin_neg_of_neg_of_neg_pi_lt
      · have := Real.pi_pos
        linarith
      · have := Real.pi_pos
        linarith
    exact (ne_of_lt hneg) h

/-- Claim C6 (amended): render([f], d, r) has length int(r*d/1000) (floor,
not round) and every value in [-1, 1]; the linear 10 ms fade is applied
exactly when the sample count exceeds twice the fade length, and then the
first sample is exactly 0 (hence below 0.01 in magnitude) whenever the
fade holds at least 1 sample, and the last sample is exactly 0 whenever
the fade holds at least 2 samples; when the envelope is not applied every
sample equals the normalized raw signal. -/
theorem generate_tone_single_bounds_fade (f : ℚ) (d r : ℕ) :
    (generate_tone [f] d r).length = r * d / 1000 ∧
    (∀ x ∈ generate_tone [f] d r, -1 ≤ x ∧ x ≤ 1) ∧
    (0 < fadeSamples r → 2 * fadeSamples r < numSamples r d →
      (generate_tone [f] d r)[0]? = some 0) ∧
    (2 ≤ fadeSamples r → 2 * fadeSamples r < numSamples r d →
      (generate_tone [f] d r)[numSamples r d - 1]? = some 0) ∧
    (¬(0 < fadeSamples r ∧ 2 * fadeSamples r < numSamples r d) →
      ∀ i, toneSample [f] d r i = toneSignalNormalized [f] d r i) := by
  refine ⟨generate_tone_length [f] d r, ?_, ?_, ?_, ?_⟩
  · intro x hx
    simp only [generate_tone, List.mem_map, List.mem_range] at hx
    obtain ⟨i, hi, rfl⟩ := hx
    exact toneSample_single_bound f d r i hi
  · intro hf hn
    rw [generate_tone_getElem [f] d r 0 (by omega), Option.some.injEq, toneSample_eq,
      if_pos ⟨hf, hn⟩, fadeFactor_first (fadeSamples r) (numSamples r d) hf]
    norm_num
  · intro hf hn
    rw [generate_tone_getElem [f] d r (numSamples r d - 1) (by omega), Option.some.injEq,
      toneSample_eq, if_pos ⟨by omega, hn⟩,
      fadeFactor_last (fadeSamples r) (numSamples r d) hf hn]
    norm_num
  · intro hcond i
    rw [toneSample_eq, if_neg hcond]

/-- Claim C6 counterexample: the length at r = 44100, d = 17 is 749, not
round(749.7) = 750; and at r = 100 (fade length 1 sample), f = 1,
d = 250 ms, the envelope is applied yet the last sample equals 1, whose
magnitude is not below 0.01 (linspace(1, 0, 1) = [1] leaves the final
sample unscaled). -/
theorem generate_tone_fade_edge_counterexample :
    (generate_tone [697] 17 44100).length = 749 ∧
    round ((44100 * 17 : ℚ) / 1000) = 750 ∧
    0 < fadeSamples 100 ∧ 2 * fadeSamples 100 < numSamples 100 250 ∧
    (generate_tone [1] 250 100)[numSamples 100 250 - 1]? = some 1 ∧
    ¬ (|(1 : ℝ)| < 1 / 100) := by
  refine ⟨?_, by norm_num [round_eq], by decide, by decide, ?_, by norm_num⟩
  · rw [generate_tone_length]
    decide
  · rw [generate_tone_getElem [1] 250 100 (numSamples 100 250 - 1) (by decide),
      Option.some.injEq, toneSample_eq, if_pos (by decide)]
    have hfac : fadeFactor (fadeSamples 100) (numSamples 100 250) (numSamples 100 250 - 1) = 1 := by
      norm_num [fadeFactor, fadeSamples, numSamples]
    rw [hfac, toneSignalNormalized_single]
    have hst : sampleTime 250 (numSamples 100 250) (numSamples 100 250 - 1) = 1 / 4 := by
      norm_num [sampleTime, numSamples]
    rw [hst, show 2 * Real.pi * ((1 : ℚ) : ℝ) * (((1 : ℚ) / 4 : ℚ) : ℝ) = Real.pi / 2 by
      push_cast; ring]
    simp [Real.sin_pi_div_two]


/-- Witness for C5: the hypotheses of the amended theorem are satisfiable:
an all-zero sample for the empty frequency list, and the grid formula at
frequencies = [697], d = 100 ms, r = 44100, i = 5. -/
theorem generate_tone_length_zeros_grid_witness :
    toneSample [] 1000 44100 0 = 0 ∧
    toneSignalNormalized [697] 100 44100 5 =
      (([697] : List ℚ).map (fun f : ℚ => Real.sin (2 * Real.pi * (f : ℝ) *
        (((100 : ℕ) : ℝ) / 1000 * ((5 : ℕ) : ℝ) / ((44100 * 100 / 1000 - 1 : ℕ) : ℝ))))).sum /
      (([697] : List ℚ).length : ℝ) :=
  ⟨(generate_tone_length_zeros_grid [] 1000 44100).2.1 rfl _
      (List.getElem?_mem (generate_tone_getElem [] 1000 44100 0 (by decide))),
   (generate_tone_length_zeros_grid [697] 100 44100).2.2 (by decide) 5 (by decide)⟩

/-- Witness for C6: first and last samples are 0 at f = 697, d = 100 ms,
r = 44100; a mid sample is within [-1, 1]; and at d = 1 ms the envelope
is skipped. -/
theorem generate_tone_single_bounds_fade_witness :
    (generate_tone [697] 100 44100)[0]? = some 0 ∧
    (generate_tone [697] 100 44100)[numSamples 44100 100 - 1]? = some 0 ∧
    (-1 ≤ toneSample [697] 100 44100 3 ∧ toneSample [697] 100 44100 3 ≤ 1) ∧
    toneSample [697] 1 44100 0 = toneSignalNormalized [697] 1 44100 0 :=
  ⟨(generate_tone_single_bounds_fade 697 100 44100).2.2.1 (by decide) (by decide),
   (generate_tone_single_bounds_fade 697 100 44100).2.2.2.1 (by decide) (by decide),
   (generate_tone_single_bounds_fade 697 100 44100).2.1 _
      (List.getElem?_mem (generate_tone_getElem [697] 100 44100 3 (by decide))),
   (generate_tone_single_bounds_fade 697 1 44100).2.2.2.2 (by decide) 0⟩

/-- Claim C1 (amended): for every text whose characters all have code
points at most 255, dual-tone encode returns a frame with exactly
2 * len(T) tone events, each carrying exactly 2 frequencies, the first
from {697, 770, 852, 941} and the second from {1209, 1336, 1477, 1633},
with original_text = T.  (A character above 255 instead contributes one
event per hex digit of its code point, which is more than 2.) -/
theorem dtmf_encode_latin1_shape (dur : ℤ) (t : String) (h : ∀ c ∈ t.data, c.toNat ≤ 255) :
    ∃ frame : EncodedFrame, dtmfEncode dur t = some frame ∧
      frame.tones.length = 2 * t.length ∧
      frame.original_text = t ∧
      ∀ ev ∈ frame.tones, ∃ lo hi, ev.frequencies = [lo, hi] ∧
        lo ∈ ([697, 770, 852, 941] : List ℚ) ∧
        hi ∈ ([1209, 1336, 1477, 1633] : List ℚ) := by
  obtain ⟨tpc, htpc, hlen, hev⟩ := dtmfEncodeList_of_le255 dur t.data h
  refine ⟨{ tones := tpc.flatten, original_text := t }, ?_, hlen, rfl, hev⟩
  simp [dtmfEncode, htpc]

/-- Witness for C1: the amended theorem applied to the text Hi at the
default 100 ms duration. -/
theorem dtmf_encode_latin1_shape_witness :
    ∃ frame : EncodedFrame, dtmfEncode 100 "Hi" = some frame ∧
      frame.tones.length = 2 * "Hi".length ∧
      frame.original_text = "Hi" ∧
      ∀ ev ∈ frame.tones, ∃ lo hi, ev.frequencies = [lo, hi] ∧
        lo ∈ ([697, 770, 852, 941] : List ℚ) ∧
        hi ∈ ([1209, 1336, 1477, 1633] : List ℚ) :=
  dtmf_encode_latin1_shape 100 "Hi" (by decide)

/-- Claim C1 counterexample: the single-character text with code point 256
(hex 100) produces 3 tone events, not 2 * 1 = 2. -/
theorem dtmf_encode_nonlatin1_counterexample :
    (dtmfEncode 100 (String.mk [Char.ofNat 256])).map (fun frame => frame.tones.length) = some 3 ∧
    (String.mk [Char.ofNat 256]).length = 1 ∧
    (dtmfEncode 100 (String.mk [Char.ofNat 256])).map (fun frame => frame.tones.length) ≠
      some (2 * (String.mk [Char.ofNat 256]).length) := by
  exact ⟨by decide, by decide, by decide⟩

/-- Claim C2: the dual-tone encoder is claimed to raise an
encoding-range error for code points above 255; the code instead
proceeds silently: code point 256 formats to the 3-digit hex string 100,
every digit of which is a valid table key, so encode returns a 3-event
frame derived from out-of-range data and no error path exists.  This
evaluation exhibits the code behavior at the failing input. -/
theorem dtmf_encode_overrange_proceeds :
    dtmfEncode 100 (String.mk [Char.ofNat 256]) =
      some { tones := [{ frequencies := [697, 1209], duration_ms := 100 },
                       { frequencies := [941, 1336], duration_ms := 100 },
                       { frequencies := [941, 1336], duration_ms := 100 }],
             original_text := String.mk [Char.ofNat 256] } := by decide

/-- Claim C7: both single-tone encoders clamp the code point to [0, 255]
(clamped, never rejected) and interpolate linearly: the audible variant
maps c to 400 + (min(c,255)/255)*1600 Hz and the ultrasonic variant to
15000 + (min(c,255)/255)*5000 Hz; each character emits exactly one
single-frequency tone event; code point 65 maps to approximately 807.8
Hz, 0 to exactly 400 Hz and 255 to exactly 2000 Hz. -/
theorem single_tone_frequency_mapping :
    (∀ c : Char, FSK.charToFrequency c = 400 + ((Nat.min c.toNat 255 : ℕ) : ℚ) / 255 * 1600) ∧
    (∀ c : Char, Ultrasonic.charToFrequency c =
      15000 + ((Nat.min c.toNat 255 : ℕ) : ℚ) / 255 * 5000) ∧
    (∀ (dur : ℤ) (t : String), (FSK.encode dur t).tones =
      t.data.map (fun c => { frequencies := [FSK.charToFrequency c], duration_ms := dur })) ∧
    (∀ (dur : ℤ) (t : String), (Ultrasonic.encode dur t).tones =
      t.data.map (fun c => { frequencies := [Ultrasonic.charToFrequency c], duration_ms := dur })) ∧
    |FSK.charToFrequency (Char.ofNat 65) - 8078 / 10| < 1 / 10 ∧
    FSK.charToFrequency (Char.ofNat 0) = 400 ∧
    FSK.charToFrequency (Char.ofNat 255) = 2000 := by
  refine ⟨?_, ?_, fun dur t => rfl, fun dur t => rfl, ?_, ?_, ?_⟩
  · intro c
    have hmm : Nat.max 0 (Nat.min 255 c.toNat) = Nat.min c.toNat 255 := by
      simp [Nat.max_def, Nat.min_def]
      split_ifs <;> omega
    simp only [FSK.charToFrequency, FSK.MIN_FREQUENCY, FSK.FREQUENCY_RANGE, FSK.MAX_FREQUENCY, hmm]
    norm_num
  · intro c
    have hmm : Nat.max 0 (Nat.min 255 c.toNat) = Nat.min c.toNat 255 := by
      simp [Nat.max_def, Nat.min_def]
      split_ifs <;> omega
    simp only [Ultrasonic.charToFrequency, Ultrasonic.MIN_FREQUENCY, Ultrasonic.FREQUENCY_RANGE,
      Ultrasonic.MAX_FREQUENCY, hmm]
    norm_num
  · have hx : Nat.max 0 (Nat.min 255 (Char.ofNat 65).toNat) = 65 := by decide
    simp [FSK.charToFrequency, hx, FSK.MIN_FREQUENCY, FSK.FREQUENCY_RANGE, FSK.MAX_FREQUENCY]
    rw [abs_lt]
    norm_num
  · have hx : Nat.max 0 (Nat.min 255 (Char.ofNat 0).toNat) = 0 := by decide
    simp [FSK.charToFrequency, hx, FSK.MIN_FREQUENCY, FSK.FREQUENCY_RANGE, FSK.MAX_FREQUENCY]
  · have hx : Nat.max 0 (Nat.min 255 (Char.ofNat 255).toNat) = 255 := by decide
    simp [FSK.charToFrequency, hx, FSK.MIN_FREQUENCY, FSK.FREQUENCY_RANGE, FSK.MAX_FREQUENCY]

/-- Claim C8: for every character with a 2-digit hex code (code point at
most 255) the dual-tone encoder emits the symbol of the most-significant
hex digit (code / 16) first and the least-significant (code % 16) second;
in particular encode of H (code 72, hex 48) yields exactly the events for
symbols 4 and 8 in that order with frequency pairs (770, 1209) then
(852, 1336). -/
theorem dtmf_most_significant_digit_first :
    (∀ c : Char, c.toNat ≤ 255 →
      ∃ s1 s2, charToDtmfSymbols c = some [s1, s2] ∧
        HEX_TO_DTMF.lookup (hexDigitChar (c.toNat / 16)) = some s1 ∧
        HEX_TO_DTMF.lookup (hexDigitChar (c.toNat % 16)) = some s2) ∧
    dtmfEncode 100 "H" =
      some { tones := [{ frequencies := [770, 1209], duration_ms := 100 },
                       { frequencies := [852, 1336], duration_ms := 100 }],
             original_text := "H" } := by
  constructor
  · intro c hc
    obtain ⟨s1, lo1, hi1, hs1, hf1, hm1, hn1⟩ := dtmfDigitGood (c.toNat / 16) (by omega)
    obtain ⟨s2, lo2, hi2, hs2, hf2, hm2, hn2⟩ := dtmfDigitGood (c.toNat % 16) (by omega)
    refine ⟨s1, s2, ?_, hs1, hs2⟩
    simp [charToDtmfSymbols, formatHex02_two_digits c.toNat (by omega), optionMapList, hs1, hs2]
  · decide

/-- Witness for C8: the digit-order statement instantiated at H. -/
theorem dtmf_most_significant_digit_first_witness :
    ∃ s1 s2, charToDtmfSymbols 'H' = some [s1, s2] ∧
      HEX_TO_DTMF.lookup (hexDigitChar ('H'.toNat / 16)) = some s1 ∧
      HEX_TO_DTMF.lookup (hexDigitChar ('H'.toNat % 16)) = some s2 :=
  dtmf_most_significant_digit_first.1 'H' (by decide)

/-- Claim C3 (amended): after any flush call that completes without the
handler raising and that found the accumulated text non-empty, the
accumulated text is empty and the pending-fragment counter is zero; and
provided every added fragment is non-empty, the counter never exceeds the
configured threshold across any sequence of add and flush calls.  (A
flush on an empty buffer is a no-op that does not reset the counter, so
with empty fragments the counter can exceed the threshold; see the
counterexample.) -/
theorem tokenBuffer_flush_reset_and_threshold :
    (∀ (E : Type) (on_flush : String → Except E Unit) (tb : TokenBuffer),
      tb.buffer ≠ "" → on_flush tb.buffer = Except.ok () →
      (TokenBuffer.flush on_flush tb).1.buffer = "" ∧
      (TokenBuffer.flush on_flush tb).1.token_count = 0) ∧
    (∀ (E : Type) (on_flush : String → Except E Unit),
      (∀ s, on_flush s = Except.ok ()) →
      ∀ b : ℤ, 1 ≤ b →
      ∀ ops : List BufferOp, (∀ s, BufferOp.addOp s ∈ ops → s ≠ "") →
      (runOps on_flush (TokenBuffer.init b) ops).1.token_count ≤ b) := by
  constructor
  · intro E on_flush tb hne hok
    rw [tokenBufferFlush_ok_reset on_flush tb hne hok]
    exact ⟨rfl, rfl⟩
  · intro E on_flush hok b hb ops hne
    have hrun := runOps_inv on_flush hok b hb ops (TokenBuffer.init b) hne rfl
      (by simp [TokenBuffer.init]) (by simp [TokenBuffer.init]) (by simp [TokenBuffer.init]; omega)
    omega

/-- Witness for C3: a successful non-empty flush resets the state, and a
run of three non-empty adds against threshold 2 keeps the counter at most
2. -/
theorem tokenBuffer_flush_reset_and_threshold_witness :
    ((TokenBuffer.flush okHandler
        { buffer_size := 3, buffer := "abc", token_count := 2 }).1.buffer = "" ∧
     (TokenBuffer.flush okHandler
        { buffer_size := 3, buffer := "abc", token_count := 2 }).1.token_count = 0) ∧
    (runOps okHandler (TokenBuffer.init 2)
      [BufferOp.addOp "x", BufferOp.addOp "yz", BufferOp.flushOp]).1.token_count ≤ 2 :=
  ⟨tokenBuffer_flush_reset_and_threshold.1 Unit okHandler
      { buffer_size := 3, buffer := "abc", token_count := 2 } (by decide) rfl,
   tokenBuffer_flush_reset_and_threshold.2 Unit okHandler (fun s => rfl) 2 (by decide)
     [BufferOp.addOp "x", BufferOp.addOp "yz", BufferOp.flushOp]
     (by intro s hs; simp at hs; rcases hs with rfl | rfl <;> decide)⟩

/-- Claim C3 counterexample: with threshold 1, adding the empty fragment
triggers a flush that completes without the handler raising (the handler
is never invoked because the accumulated text is empty), yet the counter
afterwards is 1, not 0; a second empty add drives the counter to 2,
exceeding the threshold 1. -/
theorem tokenBuffer_empty_fragment_counterexample :
    (TokenBuffer.add okHandler (TokenBuffer.init 1) "").2.1 = none ∧
    (TokenBuffer.add okHandler (TokenBuffer.init 1) "").1.token_count = 1 ∧
    (runOps okHandler (TokenBuffer.init 1)
      [BufferOp.addOp "", BufferOp.addOp ""]).1.token_count = 2 := by
  decide

/-- Claim C4: flush invokes the handler exactly once with the full
accumulated text when that text is non-empty (the invocation list is
exactly [text]), invokes it zero times when the text is empty, and when
the handler raises, the buffer state is returned unchanged with the error
propagated (clearing happens only after handler success). -/
theorem tokenBuffer_flush_handler_contract (E : Type) (on_flush : String → Except E Unit)
    (tb : TokenBuffer) :
    (tb.buffer ≠ "" → (TokenBuffer.flush on_flush tb).2.2 = [tb.buffer]) ∧
    (tb.buffer = "" → (TokenBuffer.flush on_flush tb).2.2 = []) ∧
    (∀ e, tb.buffer ≠ "" → on_flush tb.buffer = Except.error e →
      (TokenBuffer.flush on_flush tb).1 = tb ∧
      (TokenBuffer.flush on_flush tb).2.1 = some e) := by
  refine ⟨?_, ?_, ?_⟩
  · intro hne
    unfold TokenBuffer.flush
    rw [if_pos hne]
    cases on_flush tb.buffer <;> rfl
  · intro he
    rw [tokenBufferFlush_empty on_flush tb he]
  · intro e hne herr
    unfold TokenBuffer.flush
    rw [if_pos hne, herr]
    exact ⟨rfl, rfl⟩

/-- Witness for C4: a raising handler is called once with the full text
and leaves the state unchanged with the error propagated; an empty buffer
makes zero handler calls. -/
theorem tokenBuffer_flush_handler_contract_witness :
    (TokenBuffer.flush errHandler
      { buffer_size := 3, buffer := "ab", token_count := 2 }).2.2 = ["ab"] ∧
    (TokenBuffer.flush errHandler
      { buffer_size := 3, buffer := "ab", token_count := 2 }).1 =
      { buffer_size := 3, buffer := "ab", token_count := 2 } ∧
    (TokenBuffer.flush errHandler
      { buffer_size := 3, buffer := "ab", token_count := 2 }).2.1 = some 7 ∧
    (TokenBuffer.flush okHandler
      { buffer_size := 3, buffer := "", token_count := 0 }).2.2 = [] :=
  ⟨(tokenBuffer_flush_handler_contract ℕ errHandler _).1 (by decide),
   ((tokenBuffer_flush_handler_contract ℕ errHandler _).2.2 7 (by decide) rfl).1,
   ((tokenBuffer_flush_handler_contract ℕ errHandler _).2.2 7 (by decide) rfl).2,
   (tokenBuffer_flush_handler_contract Unit okHandler _).2.1 rfl⟩

/-- Claim C9 (amended): construction performs no validation at all: a
TokenBuffer accepts any threshold (including values below 1) and the
encoders accept any tone_duration_ms (including nonpositive values); the
invalid configuration is stored as-is and surfaces only later, during
streaming (a threshold of 0 flushes on every add, a nonpositive duration
is embedded in every emitted tone event).  No configuration error exists
in the code. -/
theorem construction_performs_no_validation (b dur : ℤ) :
    TokenBuffer.init b = { buffer_size := b, buffer := "", token_count := 0 } ∧
    FSK.encode dur "x" =
      { tones := [{ frequencies := [19600 / 17], duration_ms := dur }], original_text := "x" } ∧
    dtmfEncode dur "x" =
      some { tones := [{ frequencies := [852, 1209], duration_ms := dur },
                       { frequencies := [852, 1336], duration_ms := dur }],
             original_text := "x" } ∧
    (TokenBuffer.add okHandler (TokenBuffer.init 0) "x").2.2 = ["x"] := by
  refine ⟨rfl, ?_, ?_, by decide⟩
  · simp [FSK.encode, FSK.charToFrequency, FSK.MIN_FREQUENCY, FSK.FREQUENCY_RANGE,
      FSK.MAX_FREQUENCY]
    norm_num [min_def]
  · rfl

/-- Claim C9 counterexample: constructing a TokenBuffer with threshold 0
and an encoder with tone_duration_ms = -5 both succeed (no configuration
error is raised at construction); the invalid duration appears in the
encoded frame and the invalid threshold first has an effect during
streaming, when the first add immediately flushes. -/
theorem construction_accepts_invalid_config :
    TokenBuffer.init 0 = { buffer_size := 0, buffer := "", token_count := 0 } ∧
    FSK.encode (-5) "x" =
      { tones := [{ frequencies := [19600 / 17], duration_ms := -5 }], original_text := "x" } ∧
    (TokenBuffer.add okHandler (TokenBuffer.init 0) "x").2.2 = ["x"] := by
  refine ⟨rfl, ?_, by decide⟩
  simp [FSK.encode, FSK.charToFrequency, FSK.MIN_FREQUENCY, FSK.FREQUENCY_RANGE,
    FSK.MAX_FREQUENCY]
  norm_num [min_def]

/-- Witness for C10: the duration propagation applied to the dual-tone
encoding of A at 100 ms. -/
theorem encode_duration_propagation_witness :
    ({ tones := [{ frequencies := [770, 1209], duration_ms := 100 },
                 { frequencies := [697, 1209], duration_ms := 100 }],
       original_text := "A" } : EncodedFrame).tones.map (fun ev => ev.duration_ms) =
      List.replicate
        ({ tones := [{ frequencies := [770, 1209], duration_ms := 100 },
                     { frequencies := [697, 1209], duration_ms := 100 }],
           original_text := "A" } : EncodedFrame).tones.length 100 :=
  (encode_duration_propagation 100 "A").1
    { tones := [{ frequencies := [770, 1209], duration_ms := 100 },
                { frequencies := [697, 1209], duration_ms := 100 }],
      original_text := "A" } (by decide)
